import Mathlib

/-!
Verification of the streamdelay pipeline controller (`src/pipelineMachine.ts`,
`src/server.ts`) against its natural-language specification.

The controller is an XState v5 statechart with two parallel regions:

* `censorship` : `normal` / `censored.active` / `censored.deactivating`,
  where `deactivating` carries an `after STREAM_DELAY` timed transition back
  to `normal` (`STREAM_DELAY = 1000 * settings.delaySeconds` milliseconds;
  the `: 0` fallback for a missing `settings` is dead, since the context is
  always created with settings).
* `stream` : `stopped` / `restarting` / `running.(waiting|started)` / `error`,
  with region-level handlers `START -> .running`, `STOP -> .stopped`,
  `PIPELINE_ENDED -> .restarting`, and `after RESTART_DELAY` on `restarting`
  (`RESTART_DELAY = 1000 * settings.restartSeconds`).

The embedding below is a faithful translation of the statechart's transition
logic into explicit transition functions over an explicit state record,
together with the XState semantics the config relies on:

* entering `running` invokes the `runPipeline` actor; we tag each invocation
  with a fresh generation number.  Events sent by an invoked actor
  (`PIPELINE_STARTED` / `PIPELINE_ENDED`) reach the machine only while the
  invoking `running` state is active and the sending actor is the currently
  invoked one (a stopped actor's `sendBack` is dropped); this is the
  `delivered` dispatch layer below.
* `after` timers are cancelled when their owning state is exited; firing is
  modelled as explicit events whose admissibility (`timerOk`) requires the
  owning state to be active with the recorded deadline elapsed.
* the eventless (`always`) transitions of `running.started` are re-evaluated
  after every event processed while `started` is active — including events
  that take a targetless transition (`START` inside `running`) and events
  matching no transition at all — and exactly one of their guards passes
  (`isCensored` first, then `isNormal`, and every censorship state satisfies
  one of them), so each such processing step re-executes the enabled `sendTo`
  once: a step emits the current render command exactly when the event is
  delivered and the post-state has `started` active.
* entry `raise` actions on `censorship.normal` / `censorship.censored`
  (`NORMAL`, `CENSOR`) are omitted: in the current machine configuration no
  active state handles the raised event at the point it is processed
  (`CENSOR` is only handled in `normal`, which has just been exited, and
  `NORMAL` has no handler anywhere), so both raises are no-ops.

Times are in milliseconds.  `Date.now()` is modelled by the timestamp of the
processed event.
-/

namespace Streamdelay

/-- Controller-relevant fields of `AppSettings` (`src/types.ts`).  Fields that
are merely interpolated into the GStreamer pipeline string (width, height,
bitrate, presets, overlay path, …) do not influence the control logic modelled
here and are omitted; `encoder`, `outUri`, `outPipeline` participate in the
synchronous construction checks of `runPipeline` and are kept.  `encoder` is a
plain string, as the defensive `Unexpected encoder` branch in the source
treats it. -/
structure AppSettings where
  delaySeconds : Nat
  restartSeconds : Nat
  encoder : String
  outUri : Option String
  outPipeline : Option String
  inPipeline : Option String
  srtInUri : Option String
  outScript : Option String
deriving DecidableEq

/-- `STREAM_DELAY` delay in milliseconds: `1000 * context.settings.delaySeconds`. -/
def streamDelayMs (a : AppSettings) : Nat := 1000 * a.delaySeconds

/-- `RESTART_DELAY` delay in milliseconds: `1000 * context.settings.restartSeconds`. -/
def restartDelayMs (a : AppSettings) : Nat := 1000 * a.restartSeconds

/-- State of the `censorship` region.  `censoredDeactivating` records the
absolute deadline of its pending `after STREAM_DELAY` transition. -/
inductive CensState where
  | normal
  | censoredActive
  | censoredDeactivating (deadline : Nat)
deriving DecidableEq

/-- Substates of `stream.running`. -/
inductive StreamSub where
  | waiting
  | started
deriving DecidableEq

/-- State of the `stream` region.  `restarting` records the absolute deadline
of its pending `after RESTART_DELAY` transition; `running` records the
generation number of the currently invoked `runPipeline` actor. -/
inductive StreamState where
  | stopped
  | restarting (deadline : Nat)
  | running (gen : Nat) (sub : StreamSub)
  | error
deriving DecidableEq

/-- Full machine state: the two region configurations plus the XState context
(`startTime`, `settings`) and the generation counter for actor invocations. -/
structure MachineState where
  cens : CensState
  stream : StreamState
  startTime : Option Nat
  nextGen : Nat
  settings : AppSettings
deriving DecidableEq

/-- Initial state: both regions at their `initial` targets, `startTime: null`. -/
def initState (a : AppSettings) : MachineState :=
  ⟨.normal, .stopped, none, 0, a⟩

/-- Events processed by the machine.  `PIPELINE_STARTED` / `PIPELINE_ENDED`
carry the generation of the invoked actor that sent them; `censorDelayFire` /
`restartDelayFire` are the `after` transitions of `censored.deactivating` and
`restarting`. -/
inductive Event where
  | START
  | STOP
  | CENSOR
  | UNCENSOR
  | PIPELINE_STARTED (gen : Nat)
  | PIPELINE_ENDED (gen : Nat)
  | censorDelayFire
  | restartDelayFire
deriving DecidableEq

/-- Render commands sent to the invoked `runPipeline` actor. -/
inductive Cmd where
  | renderNormal
  | renderCensored
deriving DecidableEq

/-- Observable effects of one processing step: a render command sent to the
invoked actor, or the invocation (spawn) of a fresh `runPipeline` actor. -/
inductive Output where
  | render (c : Cmd)
  | spawn (gen : Nat)
deriving DecidableEq

/-- `guards.isCensored`: the censorship region is in `censored`
(either substate). -/
def isCensoredState : CensState → Bool
  | .normal => false
  | .censoredActive => true
  | .censoredDeactivating _ => true

/-- The render command chosen by the `always` transitions of
`running.started`: `RENDER_CENSORED` when `isCensored`, otherwise
`RENDER_NORMAL` (`isNormal`). -/
def renderCmd (c : CensState) : Cmd :=
  if isCensoredState c then .renderCensored else .renderNormal

/-- Transition of the `censorship` region for one delivered event, with a flag
recording whether a transition of this region was taken.

Faithful to the source config: `CENSOR` is handled only in `normal`
(`normal.on.CENSOR: 'censored'`); `censored.on.UNCENSOR: '.deactivating'`
re-enters `deactivating` (restarting its `after` timer) also when already
there; the `after STREAM_DELAY` of `deactivating` targets
`#pipeline.censorship.normal`.  In particular a `CENSOR` received while in
`censored` (either substate) has no matching handler and is discarded. -/
def censNext (a : AppSettings) (t : Nat) (c : CensState) : Event → CensState × Bool
  | .CENSOR =>
    match c with
    | .normal => (.censoredActive, true)
    | _ => (c, false)
  | .UNCENSOR =>
    match c with
    | .censoredActive => (.censoredDeactivating (t + streamDelayMs a), true)
    | .censoredDeactivating _ => (.censoredDeactivating (t + streamDelayMs a), true)
    | _ => (c, false)
  | .censorDelayFire =>
    match c with
    | .censoredDeactivating _ => (.normal, true)
    | _ => (c, false)
  | _ => (c, false)

/-- Result of the `stream` region transition: new region state, new
`startTime` (the `exit` action of `started` resets it, its `entry` action sets
it), new generation counter, whether `started` was entered in this step, and
the generation of a freshly invoked actor, if any. -/
structure StreamRes where
  stream : StreamState
  startTime : Option Nat
  nextGen : Nat
  enteredStarted : Bool
  spawned : Option Nat
deriving DecidableEq

/-- The `exit: assign({ startTime: null })` action of `running.started`:
applied whenever the step exits `started`. -/
def exitStart (st : StreamState) (s0 : Option Nat) : Option Nat :=
  match st with
  | .running _ .started => none
  | _ => s0

/-- Transition of the `stream` region for one delivered event.

Region-level handlers: `START: '.running'`, `STOP: '.stopped'`,
`PIPELINE_ENDED: '.restarting'` — note that the `PIPELINE_ENDED` handler is
declared on the region and carries no generation or running-state guard.
`running` overrides `START` with a targetless (no-op) transition and handles
`PIPELINE_STARTED: '.started'`; entering `running` invokes a fresh
`runPipeline` actor; `restarting`'s `after RESTART_DELAY` targets `running`. -/
def streamNext (a : AppSettings) (t : Nat) (st : StreamState) (s0 : Option Nat)
    (k : Nat) : Event → StreamRes
  | .START =>
    match st with
    | .running n sub => ⟨.running n sub, s0, k, false, none⟩
    | _ => ⟨.running k .waiting, exitStart st s0, k + 1, false, some k⟩
  | .STOP => ⟨.stopped, exitStart st s0, k, false, none⟩
  | .PIPELINE_ENDED _ => ⟨.restarting (t + restartDelayMs a), exitStart st s0, k, false, none⟩
  | .PIPELINE_STARTED _ =>
    match st with
    | .running n _ => ⟨.running n .started, some t, k, true, none⟩
    | _ => ⟨st, s0, k, false, none⟩
  | .restartDelayFire =>
    match st with
    | .restarting _ => ⟨.running k .waiting, s0, k + 1, false, some k⟩
    | _ => ⟨st, s0, k, false, none⟩
  | _ => ⟨st, s0, k, false, none⟩

/-- The region is in `running.started`. -/
def inStarted : StreamState → Bool
  | .running _ .started => true
  | _ => false

/-- Dispatch layer: whether an arriving event reaches the machine's transition
logic.  External events always do.  Events of an invoked `runPipeline` actor
are delivered only while the invoking `running` state is active and the
sender is the currently invoked generation — XState stops the invoked actor
when `running` is exited and drops events sent by stopped actors.  Timer
events exist only while their owning state is active (exiting the state
cancels the `after` timer). -/
def delivered (m : MachineState) : Event → Bool
  | .PIPELINE_STARTED g =>
    match m.stream with
    | .running n _ => g == n
    | _ => false
  | .PIPELINE_ENDED g =>
    match m.stream with
    | .running n _ => g == n
    | _ => false
  | .censorDelayFire =>
    match m.cens with
    | .censoredDeactivating _ => true
    | _ => false
  | .restartDelayFire =>
    match m.stream with
    | .restarting _ => true
    | _ => false
  | _ => true

/-- New machine state after processing one event (one XState macrostep) at
time `t`.  An undelivered event leaves the state unchanged. -/
def stepNext (m : MachineState) (t : Nat) (e : Event) : MachineState :=
  if delivered m e then
    let cr := censNext m.settings t m.cens e
    let sr := streamNext m.settings t m.stream m.startTime m.nextGen e
    ⟨cr.1, sr.stream, sr.startTime, sr.nextGen, m.settings⟩
  else m

/-- Outputs of processing one event at time `t`: the spawn of a fresh actor
when `running` is entered, and the render command of `running.started`'s
`always` transitions.  The `always` transitions are re-evaluated after every
delivered event while `started` is active (entry into `started`, a censorship
change, the targetless `START`, and events matching no transition alike), and
one of `isCensored`/`isNormal` always holds, so the step sends the render
command matching the post-state censorship exactly when the post-state has
`started` active. -/
def stepOut (m : MachineState) (t : Nat) (e : Event) : List Output :=
  if delivered m e then
    let cr := censNext m.settings t m.cens e
    let sr := streamNext m.settings t m.stream m.startTime m.nextGen e
    (match sr.spawned with
     | some g => [Output.spawn g]
     | none => []) ++
    (if inStarted sr.stream then
      [Output.render (renderCmd cr.1)]
     else [])
  else []

/-- One processing step, state and outputs together. -/
def stepM (m : MachineState) (t : Nat) (e : Event) : MachineState × List Output :=
  (stepNext m t e, stepOut m t e)

/-- Whether a step's outputs include the invocation of a fresh actor. -/
def hasSpawn (l : List Output) : Bool :=
  l.any fun o =>
    match o with
    | .spawn _ => true
    | .render _ => false

/-- State reached after processing a timed trace of events. -/
def runState (m : MachineState) : List (Nat × Event) → MachineState
  | [] => m
  | (t, e) :: r => runState (stepNext m t e) r

/-- Timestamped outputs of a timed trace of events. -/
def runOut (m : MachineState) : List (Nat × Event) → List (Nat × Output)
  | [] => []
  | (t, e) :: r =>
    (stepOut m t e).map (fun o => (t, o)) ++ runOut (stepNext m t e) r

/-- Admissibility of a timer event at time `t`: the owning state is active and
its recorded deadline has elapsed (an `after` timer cancelled by exiting its
state never fires, and a restarted timer fires no earlier than its new
deadline). -/
def timerOk (m : MachineState) (t : Nat) : Event → Bool
  | .censorDelayFire =>
    match m.cens with
    | .censoredDeactivating d => decide (d ≤ t)
    | _ => false
  | .restartDelayFire =>
    match m.stream with
    | .restarting d => decide (d ≤ t)
    | _ => false
  | _ => true

/-- A trace is valid from state `m` at time `t0` when its timestamps are
nondecreasing, never before `t0`, and every timer event is admissible when
processed. -/
def validTrace (t0 : Nat) (m : MachineState) : List (Nat × Event) → Bool
  | [] => true
  | (t, e) :: r =>
    decide (t0 ≤ t) && timerOk m t e && validTrace t (stepNext m t e) r

/-- A concrete, construction-valid settings record used by witnesses:
`delaySeconds = 15`, `restartSeconds = 3` (the CLI defaults in
`src/index.ts`). -/
def sampleSettings : AppSettings :=
  ⟨15, 3, "x264", some "srt://127.0.0.1:9000", none, none, some "srt://0.0.0.0:8500", none⟩

/-- C7 (counterexample): a repeated `CENSOR` while the censorship region is
already `censored.active` is not command-free.  With the stream region in
`running.started` (reached by `START@0`, `PIPELINE_STARTED@1`, `CENSOR@2`),
a further `CENSOR@3` matches no handler, yet the re-evaluated `always`
transitions of `started` re-execute `sendTo(RENDER_CENSORED)`: a render
command is produced. -/
theorem censor_while_active_resends_render :
    (runState (initState sampleSettings)
        [(0, .START), (1, .PIPELINE_STARTED 0), (2, .CENSOR)]).cens
      = .censoredActive ∧
    inStarted (runState (initState sampleSettings)
        [(0, .START), (1, .PIPELINE_STARTED 0), (2, .CENSOR)]).stream = true ∧
    stepOut (runState (initState sampleSettings)
        [(0, .START), (1, .PIPELINE_STARTED 0), (2, .CENSOR)]) 3 .CENSOR
      = [Output.render .renderCensored] := by
  refine ⟨by decide, by decide, by decide⟩

/-- C7 (amended): a repeated `CENSOR` while already `censored.active` leaves
the whole machine state unchanged — no timer is started, no censorship or
stream transition is taken, the invoked actor and its generation are kept —
and it sends no command unless the stream region is in `running.started`, in
which case the re-evaluated `always` transitions merely re-send the current
`RENDER_CENSORED` (never `RENDER_NORMAL`, never a spawn). -/
theorem censor_idempotent_state (m : MachineState) (t : Nat)
    (h : m.cens = .censoredActive) :
    stepNext m t .CENSOR = m ∧
    stepOut m t .CENSOR
      = (if inStarted m.stream then [Output.render .renderCensored] else []) := by
  obtain ⟨c, st, s0, k, a⟩ := m
  change c = CensState.censoredActive at h
  subst h
  exact ⟨rfl, rfl⟩

/-- Witness for the amended C7 at a concrete reachable state in
`running.started`, where the re-sent `RENDER_CENSORED` is visible. -/
theorem censor_idempotent_state_witness :
    (runState (initState sampleSettings)
        [(0, .START), (1, .PIPELINE_STARTED 0), (2, .CENSOR)]).cens
      = .censoredActive ∧
    (stepNext (runState (initState sampleSettings)
          [(0, .START), (1, .PIPELINE_STARTED 0), (2, .CENSOR)]) 3 .CENSOR
        = runState (initState sampleSettings)
            [(0, .START), (1, .PIPELINE_STARTED 0), (2, .CENSOR)] ∧
      stepOut (runState (initState sampleSettings)
          [(0, .START), (1, .PIPELINE_STARTED 0), (2, .CENSOR)]) 3 .CENSOR
        = (if inStarted (runState (initState sampleSettings)
              [(0, .START), (1, .PIPELINE_STARTED 0), (2, .CENSOR)]).stream
            then [Output.render .renderCensored] else [])) :=
  ⟨by decide, censor_idempotent_state _ 3 (by decide)⟩

/-- C9: a `START` event processed while the stream region is in `running`
(either substate) hits the targetless `START: {}` transition declared on
`running`, which overrides the region-level `START: '.running'` handler: the
machine state is unchanged, the invoked actor is kept (same generation) and
no new actor or generation is spawned.  While in `running.started` the step's
only output is the current render command re-sent by the re-evaluated
`always` transitions; no output otherwise. -/
theorem start_while_running_noop (m : MachineState) (t n : Nat) (sub : StreamSub)
    (h : m.stream = .running n sub) :
    stepNext m t .START = m ∧
    hasSpawn (stepOut m t .START) = false ∧
    stepOut m t .START
      = (if inStarted m.stream then [Output.render (renderCmd m.cens)] else []) := by
  obtain ⟨c, st, s0, k, a⟩ := m
  change st = StreamState.running n sub at h
  subst h
  refine ⟨rfl, ?_, rfl⟩
  cases sub <;> rfl

/-- Witness for C9 at a concrete reachable state. -/
theorem start_while_running_noop_witness :
    (runState (initState sampleSettings) [(0, .START)]).stream
      = .running 0 .waiting ∧
    (stepNext (runState (initState sampleSettings) [(0, .START)]) 7 .START
        = runState (initState sampleSettings) [(0, .START)] ∧
      hasSpawn (stepOut (runState (initState sampleSettings) [(0, .START)]) 7 .START)
        = false ∧
      stepOut (runState (initState sampleSettings) [(0, .START)]) 7 .START
        = (if inStarted (runState (initState sampleSettings) [(0, .START)]).stream
            then [Output.render
              (renderCmd (runState (initState sampleSettings) [(0, .START)]).cens)]
            else [])) :=
  ⟨by decide, start_while_running_noop _ 7 0 .waiting (by decide)⟩

/-- C5: a `PIPELINE_ENDED` sent by a superseded generation is dropped by the
dispatch layer (the superseded actor was stopped when its `running` state was
exited, and a fresh invocation carries a fresh generation), so it never moves
the stream region out of `running`; a `PIPELINE_ENDED` from the currently
invoked generation moves `running` to `restarting`. -/
theorem stale_pipeline_ended_ignored (m : MachineState) (t n g : Nat) (sub : StreamSub)
    (h : m.stream = .running n sub) (hg : g ≠ n) :
    stepM m t (.PIPELINE_ENDED g) = (m, []) ∧
    (stepNext m t (.PIPELINE_ENDED n)).stream
      = .restarting (t + restartDelayMs m.settings) := by
  constructor
  · have hd : delivered m (.PIPELINE_ENDED g) = false := by
      simp only [delivered, h, beq_iff_eq]
      exact decide_eq_false hg
    simp only [stepM, stepNext, stepOut, hd, if_false, Bool.false_eq_true]
  · have hd : delivered m (.PIPELINE_ENDED n) = true := by
      simp only [delivered, h, beq_self_eq_true]
    simp only [stepNext, hd, if_true, streamNext]

/-- Witness for C5 at a concrete reachable state (active generation 0, stale
generation 1). -/
theorem stale_pipeline_ended_ignored_witness :
    (runState (initState sampleSettings) [(0, .START)]).stream
      = .running 0 .waiting ∧
    (1 : Nat) ≠ 0 ∧
    stepM (runState (initState sampleSettings) [(0, .START)]) 9 (.PIPELINE_ENDED 1)
      = (runState (initState sampleSettings) [(0, .START)], []) :=
  ⟨by decide, by decide,
    (stale_pipeline_ended_ignored _ 9 0 1 .waiting (by decide) (by decide)).1⟩

/-- C3: a `PIPELINE_STARTED` from the active generation moves `running` to
`running.started`, and the `always` transitions of `started` send exactly one
render command within the same processing step, matching the censorship state
at that instant (`RENDER_CENSORED` when `censored`, either substate,
`RENDER_NORMAL` when `normal`); the censorship region is untouched by the
step. -/
theorem started_entry_single_render (m : MachineState) (t n : Nat) (sub : StreamSub)
    (h : m.stream = .running n sub) :
    stepOut m t (.PIPELINE_STARTED n) = [Output.render (renderCmd m.cens)] ∧
    (stepNext m t (.PIPELINE_STARTED n)).stream = .running n .started ∧
    (stepNext m t (.PIPELINE_STARTED n)).cens = m.cens := by
  have hd : delivered m (.PIPELINE_STARTED n) = true := by
    simp only [delivered, h, beq_self_eq_true]
  have hc : censNext m.settings t m.cens (.PIPELINE_STARTED n) = (m.cens, false) := rfl
  refine ⟨?_, ?_, ?_⟩
  · simp only [stepOut, hd, if_true, hc, streamNext, h, inStarted, List.nil_append]
  · simp only [stepNext, hd, if_true, streamNext, h]
  · simp only [stepNext, hd, if_true, hc]

/-- Witness for C3: a started engine in a censored state receives exactly
`RENDER_CENSORED`. -/
theorem started_entry_single_render_witness :
    (runState (initState sampleSettings) [(0, .START), (1, .CENSOR)]).stream
      = .running 0 .waiting ∧
    stepOut (runState (initState sampleSettings) [(0, .START), (1, .CENSOR)]) 2
        (.PIPELINE_STARTED 0)
      = [Output.render .renderCensored] :=
  ⟨by decide,
    (started_entry_single_render _ 2 0 .waiting (by decide)).1⟩

/-- C10: the `PIPELINE_ENDED` handler is declared at the stream-region level
with no generation or running-state guard: the region transition maps
`stopped` (and `restarting`) with `PIPELINE_ENDED` to `restarting`, the
restart timer then spawns a fresh generation, and the transition result is
independent of the generation carried by the event. -/
theorem pipeline_ended_region_level_unguarded (a : AppSettings) (t g h d k : Nat)
    (s0 : Option Nat) :
    (streamNext a t .stopped s0 k (.PIPELINE_ENDED g)).stream
      = .restarting (t + restartDelayMs a) ∧
    (streamNext a t (.restarting d) s0 k (.PIPELINE_ENDED g)).stream
      = .restarting (t + restartDelayMs a) ∧
    streamNext a t (.restarting d) s0 k .restartDelayFire
      = ⟨.running k .waiting, s0, k + 1, false, some k⟩ ∧
    ∀ st : StreamState, streamNext a t st s0 k (.PIPELINE_ENDED g)
      = streamNext a t st s0 k (.PIPELINE_ENDED h) :=
  ⟨rfl, rfl, rfl, fun _ => rfl⟩

/-- C2 (failing execution): the current machine handles `CENSOR` only in
`censorship.normal`, so a `CENSOR` processed while `censored.deactivating`
is discarded — the region does not return to `censored.active`, the pending
release timer is not cancelled, and it subsequently fires the transition to
`normal` at the originally scheduled deadline.  With `delaySeconds = 15`:
`CENSOR@0, UNCENSOR@1000` puts the region in `deactivating` with deadline
16000; `CENSOR@2000` is a no-op; the timer fire at 16000 reaches `normal`. -/
theorem censor_during_deactivating_discarded :
    (runState (initState sampleSettings) [(0, .CENSOR), (1000, .UNCENSOR)]).cens
      = .censoredDeactivating 16000 ∧
    stepM (runState (initState sampleSettings) [(0, .CENSOR), (1000, .UNCENSOR)])
        2000 .CENSOR
      = (runState (initState sampleSettings) [(0, .CENSOR), (1000, .UNCENSOR)], []) ∧
    validTrace 0 (initState sampleSettings)
        [(0, .CENSOR), (1000, .UNCENSOR), (2000, .CENSOR), (16000, .censorDelayFire)]
      = true ∧
    (runState (initState sampleSettings)
        [(0, .CENSOR), (1000, .UNCENSOR), (2000, .CENSOR), (16000, .censorDelayFire)]).cens
      = .normal := by
  refine ⟨by decide, by decide, by decide, by decide⟩

/-- Exiting `started` always leaves `startTime` unset, given the invariant
held before the step. -/
lemma exitStart_isSome (st : StreamState) (s0 : Option Nat)
    (h : s0.isSome = inStarted st) : (exitStart st s0).isSome = false := by
  cases st with
  | running n sub =>
    cases sub with
    | waiting => simpa [inStarted, exitStart] using h
    | started => rfl
  | stopped => simpa [inStarted, exitStart] using h
  | restarting d => simpa [inStarted, exitStart] using h
  | error => simpa [inStarted, exitStart] using h

/-- One step preserves the `startTime`/`started` invariant. -/
lemma startTime_step (m : MachineState) (t : Nat) (e : Event)
    (h : m.startTime.isSome = inStarted m.stream) :
    (stepNext m t e).startTime.isSome = inStarted (stepNext m t e).stream := by
  have hex : (exitStart m.stream m.startTime).isSome = false :=
    exitStart_isSome _ _ h
  by_cases hd : delivered m e = true
  · simp only [stepNext, hd, if_true]
    cases e with
    | START =>
      cases hst : m.stream with
      | running n sub =>
        rw [hst] at h
        simpa [streamNext, hst] using h
      | stopped =>
        rw [hst] at hex
        simpa [streamNext, hst, inStarted, exitStart] using hex
      | restarting d =>
        rw [hst] at hex
        simpa [streamNext, hst, inStarted, exitStart] using hex
      | error =>
        rw [hst] at hex
        simpa [streamNext, hst, inStarted, exitStart] using hex
    | STOP => simp [streamNext, inStarted, hex]
    | PIPELINE_ENDED g => simp [streamNext, inStarted, hex]
    | PIPELINE_STARTED g =>
      cases hst : m.stream with
      | running n sub => simp [streamNext, hst, inStarted]
      | stopped => rw [hst] at h; simpa [streamNext, hst] using h
      | restarting d => rw [hst] at h; simpa [streamNext, hst] using h
      | error => rw [hst] at h; simpa [streamNext, hst] using h
    | restartDelayFire =>
      cases hst : m.stream with
      | restarting d =>
        rw [hst] at h; simp only [inStarted] at h
        simp [streamNext, hst, inStarted, h]
      | running n sub => rw [hst] at h; simpa [streamNext, hst] using h
      | stopped => rw [hst] at h; simpa [streamNext, hst] using h
      | error => rw [hst] at h; simpa [streamNext, hst] using h
    | CENSOR => simpa [streamNext] using h
    | UNCENSOR => simpa [streamNext] using h
    | censorDelayFire => simpa [streamNext] using h
  · simp only [stepNext, hd, if_false]
    exact h

/-- C6: on every reachable state, the context field `startTime` is set if and
only if the stream region is in `running.started` — it is `null` initially,
assigned by the `entry` action of `started` and reset by its `exit` action. -/
theorem startTime_iff_started (a : AppSettings) (tr : List (Nat × Event)) :
    (runState (initState a) tr).startTime.isSome
      = inStarted (runState (initState a) tr).stream := by
  suffices h : ∀ m : MachineState, m.startTime.isSome = inStarted m.stream →
      (runState m tr).startTime.isSome = inStarted (runState m tr).stream by
    exact h (initState a) rfl
  induction tr with
  | nil => intro m hm; exact hm
  | cons p r ih =>
    intro m hm
    obtain ⟨t, e⟩ := p
    simpa [runState] using ih _ (startTime_step m t e hm)

/-- Synchronous validation performed by `runPipeline` when constructing the
output pipeline fragment (`src/pipelineMachine.ts`, the `if (!outPipeline)`
block): a missing `outUri` or an unrecognised output protocol throws. -/
def checkOut (a : AppSettings) : Except String Unit :=
  match a.outPipeline with
  | some _ => .ok ()
  | none =>
    match a.outUri with
    | none => .error "Missing outUri"
    | some u =>
      if u.startsWith "rtmp://" then .ok ()
      else if u.startsWith "srt://" then .ok ()
      else .error ("Unexpected output stream protocol: " ++ u)

/-- Synchronous validation of the encoder selection (`runPipeline`): anything
other than `none`, `x264` or `nvenc` throws. -/
def checkEncoder (a : AppSettings) : Except String Unit :=
  if a.encoder = "none" then .ok ()
  else if a.encoder = "x264" then .ok ()
  else if a.encoder = "nvenc" then .ok ()
  else .error ("Unexpected encoder: " ++ a.encoder)

/-- The synchronous throw sites of `runPipeline`, in source order.  The
GStreamer pipeline construction itself is outside the modelled boundary. -/
def spawnCheck (a : AppSettings) : Except String Unit :=
  match checkOut a with
  | .error msg => .error msg
  | .ok _ => checkEncoder a

/-- Whether invoking `runPipeline` with these settings throws synchronously. -/
def spawnFails (a : AppSettings) : Bool :=
  match spawnCheck a with
  | .error _ => true
  | .ok _ => false

/-- The machine actor together with its XState lifecycle status: `halted` is
set once an unhandled error escalates to the root (the `invoke` of
`runPipeline` declares no `onError`, so a synchronous throw during actor
creation stops the whole machine actor with an error status). -/
structure SysState where
  machine : MachineState
  halted : Bool
deriving DecidableEq

/-- One processing step of the machine actor including the error-escalation
semantics: a halted actor processes nothing; a step that invokes `runPipeline`
with settings whose synchronous validation throws halts the actor. -/
def sysStep (σ : SysState) (t : Nat) (e : Event) : SysState × List Output :=
  if σ.halted then (σ, [])
  else
    if hasSpawn (stepOut σ.machine t e) && spawnFails σ.machine.settings then
      (⟨stepNext σ.machine t e, true⟩, [])
    else
      (⟨stepNext σ.machine t e, false⟩, stepOut σ.machine t e)

/-- No transition of the statechart targets the `error` state node: a step
only shows `error` if the region was already there. -/
lemma stream_error_unreachable (m : MachineState) (t : Nat) (e : Event)
    (h : (stepNext m t e).stream = .error) : m.stream = .error := by
  by_cases hd : delivered m e = true
  · simp only [stepNext, hd, if_true] at h
    cases e with
    | START =>
      cases hst : m.stream <;> rw [hst] at h <;> simp [streamNext] at h
    | STOP => simp [streamNext] at h
    | PIPELINE_ENDED g => simp [streamNext] at h
    | PIPELINE_STARTED g =>
      cases hst : m.stream with
      | error => exact rfl
      | running n sub => rw [hst] at h; simp [streamNext] at h
      | stopped => rw [hst] at h; simp [streamNext] at h
      | restarting d => rw [hst] at h; simp [streamNext] at h
    | restartDelayFire =>
      cases hst : m.stream with
      | error => exact rfl
      | running n sub => rw [hst] at h; simp [streamNext] at h
      | stopped => rw [hst] at h; simp [streamNext] at h
      | restarting d => rw [hst] at h; simp [streamNext] at h
    | CENSOR => simpa [streamNext] using h
    | UNCENSOR => simpa [streamNext] using h
    | censorDelayFire => simpa [streamNext] using h
  · simpa [stepNext, hd] using h

/-- Settings with no custom output pipeline and no `outUri`: `runPipeline`
throws `Missing outUri` synchronously. -/
def badSettings : AppSettings :=
  ⟨15, 3, "x264", none, none, none, some "srt://0.0.0.0:8500", none⟩

/-- C4 (counterexample): a synchronous engine-construction failure does not
put the stream region into the `Error` state.  Starting the machine with
settings lacking `outUri` halts the whole actor (unhandled invoke error)
while the region value still reads `running.waiting`, and a subsequent
explicit `START` is not processed at all. -/
theorem construction_failure_no_error_state :
    spawnCheck badSettings = .error "Missing outUri" ∧
    (sysStep ⟨initState badSettings, false⟩ 0 .START).1.halted = true ∧
    (sysStep ⟨initState badSettings, false⟩ 0 .START).1.machine.stream
      = .running 0 .waiting ∧
    (sysStep ⟨initState badSettings, false⟩ 0 .START).1.machine.stream
      ≠ .error ∧
    sysStep (sysStep ⟨initState badSettings, false⟩ 0 .START).1 1 .START
      = ((sysStep ⟨initState badSettings, false⟩ 0 .START).1, []) := by
  refine ⟨rfl, rfl, rfl, by decide, rfl⟩

/-- C4 (amended): a synchronous construction failure halts the machine actor
itself: the step that invoked the failing actor yields a halted system that
processes no further event whatsoever (no retry, no recovery by `START` or
`STOP`), and the `error` state node is unreachable — no transition of the
statechart targets it. -/
theorem construction_failure_halts_actor (σ : SysState) (t : Nat) (e : Event)
    (hr : σ.halted = false)
    (hf : spawnFails σ.machine.settings = true)
    (hs : hasSpawn (stepOut σ.machine t e) = true) :
    sysStep σ t e = (⟨stepNext σ.machine t e, true⟩, []) ∧
    (∀ t' : Nat, ∀ e' : Event,
      sysStep ⟨stepNext σ.machine t e, true⟩ t' e'
        = (⟨stepNext σ.machine t e, true⟩, [])) ∧
    (∀ m : MachineState, ∀ u : Nat, ∀ ev : Event,
      (stepNext m u ev).stream = .error → m.stream = .error) := by
  refine ⟨?_, fun t' e' => rfl, fun m u ev h => stream_error_unreachable m u ev h⟩
  simp only [sysStep, hr, Bool.false_eq_true, if_false, hf, hs, Bool.and_self, if_true]

/-- Witness for the amended C4 at the concrete failing input. -/
theorem construction_failure_halts_actor_witness :
    ((⟨initState badSettings, false⟩ : SysState).halted = false) ∧
    spawnFails (⟨initState badSettings, false⟩ : SysState).machine.settings = true ∧
    hasSpawn (stepOut (⟨initState badSettings, false⟩ : SysState).machine 0 .START)
      = true ∧
    sysStep ⟨initState badSettings, false⟩ 0 .START
      = (⟨stepNext (initState badSettings) 0 .START, true⟩, []) :=
  ⟨rfl, by decide, by decide,
    (construction_failure_halts_actor ⟨initState badSettings, false⟩ 0 .START
      rfl (by decide) (by decide)).1⟩

/-- The censorship part of an XState snapshot's state value — the `after`
deadline is timer bookkeeping, not part of `state.value`. -/
inductive CensValue where
  | normal
  | censoredActive
  | censoredDeactivating
deriving DecidableEq

/-- The stream part of an XState snapshot's state value. -/
inductive StreamValue where
  | stopped
  | restarting
  | runningWaiting
  | runningStarted
  | error
deriving DecidableEq

def censValueOf : CensState → CensValue
  | .normal => .normal
  | .censoredActive => .censoredActive
  | .censoredDeactivating _ => .censoredDeactivating

def streamValueOf : StreamState → StreamValue
  | .stopped => .stopped
  | .restarting _ => .restarting
  | .running _ .waiting => .runningWaiting
  | .running _ .started => .runningStarted
  | .error => .error

/-- The value content of a snapshot: state value plus the context fields the
server projects (`startTime`; settings are immutable). -/
structure SnapVal where
  censValue : CensValue
  streamValue : StreamValue
  startTime : Option Nat
deriving DecidableEq

/-- The snapshot value of a machine state. -/
def snapValOf (m : MachineState) : SnapVal :=
  ⟨censValueOf m.cens, streamValueOf m.stream, m.startTime⟩

/-- A snapshot as delivered to subscribers: a JavaScript object, i.e. a value
together with an object identity.  `objId` models reference identity: the
`===` comparison in `server.ts` compares identities, never values, and two
distinct snapshot objects may carry equal values. -/
structure Snapshot where
  objId : Nat
  val : SnapVal
deriving DecidableEq

/-- `snapshot.matches({ censorship: 'censored' })`. -/
def isCensoredValue : CensValue → Bool
  | .normal => false
  | _ => true

/-- `snapshot.matches({ stream: 'running' })`. -/
def isRunningValue : StreamValue → Bool
  | .runningWaiting => true
  | .runningStarted => true
  | _ => false

/-- The `/status` and websocket status payload built by `formatStatus` in
`src/server.ts`. -/
structure StatusResponse where
  delaySeconds : Nat
  restartSeconds : Nat
  isCensored : Bool
  isStreamRunning : Bool
  startTime : Option Nat
  state : CensValue × StreamValue
deriving DecidableEq

/-- `formatStatus(snapshot)` from `src/server.ts`. -/
def formatStatus (a : AppSettings) (s : SnapVal) : StatusResponse :=
  ⟨a.delaySeconds, a.restartSeconds, isCensoredValue s.censValue,
    isRunningValue s.streamValue, s.startTime, (s.censValue, s.streamValue)⟩

/-- The `===` comparison of the broadcast subscription in `src/server.ts`:
`snapshot === lastSnapshot`, i.e. reference identity against the previously
broadcast snapshot (initially `undefined`). -/
def sameRef : Option Snapshot → Snapshot → Bool
  | some l, s => l.objId == s.objId
  | none, _ => false

/-- One delivery of the broadcast subscription
(`pipelineService.subscribe` in `initAPIServer`): if the delivered snapshot
is the very same object as `lastSnapshot`, nothing is sent; otherwise
`lastSnapshot` is updated and the formatted status goes out to every
connected socket. -/
def notifyStep (a : AppSettings) (last : Option Snapshot) (snap : Snapshot) :
    Option StatusResponse × Option Snapshot :=
  if sameRef last snap then (none, last)
  else (some (formatStatus a snap.val), some snap)

/-- C8 (counterexample): deduplication is not by value.  A `STOP` processed
while already `stopped` takes the region-level `STOP: '.stopped'` transition,
so XState emits a fresh snapshot object whose value equals the previous one;
delivered to the broadcaster as a distinct object (`objId` 1 vs 0) with an
equal value, it produces a second notification. -/
theorem broadcast_value_equal_resent :
    stepNext (initState sampleSettings) 0 .STOP = initState sampleSettings ∧
    (⟨0, snapValOf (initState sampleSettings)⟩ : Snapshot).val
      = (⟨1, snapValOf (stepNext (initState sampleSettings) 0 .STOP)⟩ : Snapshot).val ∧
    (notifyStep sampleSettings
        (some ⟨0, snapValOf (initState sampleSettings)⟩)
        ⟨1, snapValOf (stepNext (initState sampleSettings) 0 .STOP)⟩).1
      = some (formatStatus sampleSettings (snapValOf (initState sampleSettings))) := by
  refine ⟨rfl, rfl, rfl⟩

/-- C8 (amended): the broadcaster suppresses a delivery exactly when the
delivered snapshot is the same object (reference identity) as the last
broadcast one; value equality plays no role, so value-equal but distinct
snapshots are re-broadcast. -/
theorem broadcast_dedup_by_reference (a : AppSettings) (last snap : Snapshot) :
    (notifyStep a (some last) snap).1 = none ↔ last.objId = snap.objId := by
  by_cases h : last.objId = snap.objId
  · simp [notifyStep, sameRef, h]
  · simp [notifyStep, sameRef, h]

/-- An *effective* `UNCENSOR`: one processed while the censorship region is in
`censored` (either substate) — exactly the `UNCENSOR` events that match a
handler and (re)enter `censored.deactivating`, (re)starting the release
timer.  An `UNCENSOR` processed while `normal` matches no handler and is a
no-op. -/
def effUncensor (m : MachineState) : Event → Bool
  | .UNCENSOR => isCensoredState m.cens
  | _ => false

/-- Accumulator update: remember the time of the latest effective `UNCENSOR`. -/
def effUpd (m : MachineState) (t : Nat) (e : Event) (acc : Option Nat) : Option Nat :=
  cond (effUncensor m e) (some t) acc

/-- Time of the last effective `UNCENSOR` along a trace. -/
def lastEff (m : MachineState) (acc : Option Nat) : List (Nat × Event) → Option Nat
  | [] => acc
  | (t, e) :: r => lastEff (stepNext m t e) (effUpd m t e acc) r

/-- The claim's literal notion: the time of the last `UNCENSOR` event of the
trace that is not followed by a later `CENSOR` event ("not subsequently
revoked"), irrespective of the machine state in which it was processed. -/
def lastUnrevokedUncensor (tr : List (Nat × Event)) : Option Nat :=
  tr.foldl
    (fun acc p =>
      match p.2 with
      | .UNCENSOR => some p.1
      | .CENSOR => none
      | _ => acc)
    none

/-- Inductive invariant tying the censorship region to the last effective
`UNCENSOR` time `le` as of time `t0`: while `deactivating`, the recorded
deadline is exactly `le + STREAM_DELAY`; otherwise the full delay since `le`
has already elapsed. -/
def censInvC (a : AppSettings) (c : CensState) (le : Option Nat) (t0 : Nat) : Prop :=
  match c with
  | .censoredDeactivating d => ∃ T, le = some T ∧ d = T + streamDelayMs a ∧ T ≤ t0
  | _ => ∀ T, le = some T → T + streamDelayMs a ≤ t0

lemma censInvC_mono (a : AppSettings) (c : CensState) (le : Option Nat)
    (t0 t1 : Nat) (h : censInvC a c le t0) (ht : t0 ≤ t1) : censInvC a c le t1 := by
  cases c with
  | censoredDeactivating d =>
    obtain ⟨T, h1, h2, h3⟩ := h
    exact ⟨T, h1, h2, le_trans h3 ht⟩
  | normal => exact fun T hT => le_trans (h T hT) ht
  | censoredActive => exact fun T hT => le_trans (h T hT) ht

lemma stepNext_settings (m : MachineState) (t : Nat) (e : Event) :
    (stepNext m t e).settings = m.settings := by
  unfold stepNext
  split <;> rfl

lemma runState_settings (tr : List (Nat × Event)) :
    ∀ m : MachineState, (runState m tr).settings = m.settings := by
  induction tr with
  | nil => intro m; rfl
  | cons p r ih =>
    intro m
    obtain ⟨t, e⟩ := p
    simp only [runState]
    rw [ih (stepNext m t e), stepNext_settings]

/-- One step preserves the censorship invariant (the heart of the delay
guarantee): a `CENSOR` keeps or leaves `deactivating` untouched (its only
handler is in `normal`), an effective `UNCENSOR` (re)starts the timer with a
fresh full-delay deadline, and the timer fire is admissible only once that
deadline has elapsed. -/
lemma censInv_step (m : MachineState) (le : Option Nat) (t0 t : Nat) (e : Event)
    (h : censInvC m.settings m.cens le t0) (ht : t0 ≤ t)
    (hok : timerOk m t e = true) :
    censInvC m.settings (stepNext m t e).cens (effUpd m t e le) t := by
  obtain ⟨c, st, s0, k, a⟩ := m
  cases e with
  | CENSOR =>
    cases c with
    | normal => exact fun T hT => le_trans (h T hT) ht
    | censoredActive => exact fun T hT => le_trans (h T hT) ht
    | censoredDeactivating d =>
      obtain ⟨T, h1, h2, h3⟩ := h
      exact ⟨T, h1, h2, le_trans h3 ht⟩
  | UNCENSOR =>
    cases c with
    | normal => exact fun T hT => le_trans (h T hT) ht
    | censoredActive => exact ⟨t, rfl, rfl, le_refl t⟩
    | censoredDeactivating d => exact ⟨t, rfl, rfl, le_refl t⟩
  | censorDelayFire =>
    cases c with
    | normal => simp [timerOk] at hok
    | censoredActive => simp [timerOk] at hok
    | censoredDeactivating d =>
      simp only [timerOk, decide_eq_true_eq] at hok
      obtain ⟨T, h1, h2, h3⟩ := h
      intro T' hT'
      rw [h1] at hT'
      cases hT'
      calc T + streamDelayMs a = d := h2.symm
        _ ≤ t := hok
  | START =>
    have hc : (stepNext ⟨c, st, s0, k, a⟩ t .START).cens = c := by
      unfold stepNext
      split <;> rfl
    rw [hc]
    exact censInvC_mono a c le t0 t h ht
  | STOP =>
    have hc : (stepNext ⟨c, st, s0, k, a⟩ t .STOP).cens = c := by
      unfold stepNext
      split <;> rfl
    rw [hc]
    exact censInvC_mono a c le t0 t h ht
  | PIPELINE_STARTED g =>
    have hc : (stepNext ⟨c, st, s0, k, a⟩ t (.PIPELINE_STARTED g)).cens = c := by
      unfold stepNext
      split <;> rfl
    rw [hc]
    exact censInvC_mono a c le t0 t h ht
  | PIPELINE_ENDED g =>
    have hc : (stepNext ⟨c, st, s0, k, a⟩ t (.PIPELINE_ENDED g)).cens = c := by
      unfold stepNext
      split <;> rfl
    rw [hc]
    exact censInvC_mono a c le t0 t h ht
  | restartDelayFire =>
    have hc : (stepNext ⟨c, st, s0, k, a⟩ t .restartDelayFire).cens = c := by
      unfold stepNext
      split <;> rfl
    rw [hc]
    exact censInvC_mono a c le t0 t h ht

/-- The censorship invariant holds at every split point of a valid trace. -/
lemma censInv_along (pre : List (Nat × Event)) :
    ∀ (m : MachineState) (le : Option Nat) (t0 t : Nat) (e : Event)
      (rest : List (Nat × Event)),
      censInvC m.settings m.cens le t0 →
      validTrace t0 m (pre ++ (t, e) :: rest) = true →
      censInvC m.settings (runState m pre).cens (lastEff m le pre) t ∧
        timerOk (runState m pre) t e = true := by
  induction pre with
  | nil =>
    intro m le t0 t e rest h hv
    simp only [List.nil_append, validTrace, Bool.and_eq_true, decide_eq_true_eq] at hv
    obtain ⟨⟨h1, h2⟩, _⟩ := hv
    exact ⟨censInvC_mono _ _ _ _ _ h h1, h2⟩
  | cons p r ih =>
    intro m le t0 t e rest h hv
    obtain ⟨t', e'⟩ := p
    simp only [List.cons_append, validTrace, Bool.and_eq_true, decide_eq_true_eq] at hv
    obtain ⟨⟨h1, h2⟩, h3⟩ := hv
    have hstep := censInv_step m le t0 t' e' h h1 h2
    have hset : (stepNext m t' e').settings = m.settings := stepNext_settings m t' e'
    simp only [runState, lastEff]
    have hrec := ih (stepNext m t' e') (effUpd m t' e' le) t' t e rest
      (by rw [hset]; exact hstep) h3
    rwa [hset] at hrec

lemma renderCmd_normal (c : CensState) (h : renderCmd c = .renderNormal) :
    c = .normal := by
  cases c with
  | normal => rfl
  | censoredActive => simp [renderCmd, isCensoredState] at h
  | censoredDeactivating d => simp [renderCmd, isCensoredState] at h

/-- A `RENDER_NORMAL` can only be emitted by a step whose post-state has the
censorship region in `normal` (`isNormal` guard of the `always` transitions). -/
lemma renderNormal_post_normal (m : MachineState) (t : Nat) (e : Event)
    (h : Output.render .renderNormal ∈ stepOut m t e) :
    (stepNext m t e).cens = .normal := by
  by_cases hd : delivered m e = true
  · simp only [stepOut, hd, if_true, List.mem_append] at h
    rcases h with h | h
    · cases hsp : (streamNext m.settings t m.stream m.startTime m.nextGen e).spawned with
      | none => rw [hsp] at h; simp at h
      | some g => rw [hsp] at h; simp at h
    · by_cases hc :
        inStarted (streamNext m.settings t m.stream m.startTime m.nextGen e).stream = true
      · rw [if_pos hc] at h
        simp only [List.mem_singleton, Output.render.injEq] at h
        simp only [stepNext, hd, if_true]
        exact renderCmd_normal _ h.symm
      · rw [if_neg hc] at h
        simp at h
  · rw [stepOut, if_neg hd] at h
    simp at h

/-- An effective `UNCENSOR` leaves the censorship region in `deactivating`
with a fresh full-delay deadline. -/
lemma effUncensor_post (m : MachineState) (t : Nat) (e : Event)
    (h : effUncensor m e = true) :
    (stepNext m t e).cens = .censoredDeactivating (t + streamDelayMs m.settings) := by
  cases e <;> simp [effUncensor] at h
  have hd : delivered m .UNCENSOR = true := rfl
  simp only [stepNext, hd, if_true]
  cases hc : m.cens with
  | normal => rw [hc] at h; simp [isCensoredState] at h
  | censoredActive => simp [censNext, hc]
  | censoredDeactivating d => simp [censNext, hc]

/-- C1 (amended): for every valid event trace, if the last *effective*
`UNCENSOR` before some step — the last `UNCENSOR` processed while the
censorship region was censored, i.e. the one that (re)started the release
timer — occurred at time `T`, then no `RENDER_NORMAL` is sent to the engine
by that step before `T + 1000 * delaySeconds`. -/
theorem render_normal_after_effective_uncensor
    (a : AppSettings) (pre rest : List (Nat × Event)) (t T : Nat) (e : Event)
    (hv : validTrace 0 (initState a) (pre ++ (t, e) :: rest) = true)
    (hT : lastEff (initState a) none pre = some T)
    (hr : Output.render .renderNormal ∈ stepOut (runState (initState a) pre) t e) :
    T + streamDelayMs a ≤ t := by
  have h0 : censInvC (initState a).settings (initState a).cens none 0 := by
    intro T0 hT0
    cases hT0
  obtain ⟨hinv, hok⟩ := censInv_along pre (initState a) none 0 t e rest h0 hv
  have hset : (runState (initState a) pre).settings = a :=
    runState_settings pre (initState a)
  have hstep := censInv_step (runState (initState a) pre)
    (lastEff (initState a) none pre) t t e (by rw [hset]; exact hinv) (le_refl t) hok
  have hpost := renderNormal_post_normal (runState (initState a) pre) t e hr
  by_cases heff : effUncensor (runState (initState a) pre) e = true
  · have hde := effUncensor_post (runState (initState a) pre) t e heff
    rw [hpost] at hde
    cases hde
  · have hupd : effUpd (runState (initState a) pre) t e
        (lastEff (initState a) none pre) = some T := by
      rw [effUpd, Bool.eq_false_iff.mpr heff, cond_false, hT]
    rw [hupd, hpost, hset] at hstep
    exact hstep T rfl

/-- Witness for the amended C1: `delaySeconds = 15`; `START@0`,
`PIPELINE_STARTED@1`, `CENSOR@2`, `UNCENSOR@3`; the release timer fires at
`3 + 15000` and only then is `RENDER_NORMAL` emitted. -/
theorem render_normal_after_effective_uncensor_witness :
    validTrace 0 (initState sampleSettings)
        ([(0, .START), (1, .PIPELINE_STARTED 0), (2, .CENSOR), (3, .UNCENSOR)] ++
          (15003, Event.censorDelayFire) :: []) = true ∧
    lastEff (initState sampleSettings) none
        [(0, .START), (1, .PIPELINE_STARTED 0), (2, .CENSOR), (3, .UNCENSOR)]
      = some 3 ∧
    Output.render .renderNormal ∈
      stepOut (runState (initState sampleSettings)
          [(0, .START), (1, .PIPELINE_STARTED 0), (2, .CENSOR), (3, .UNCENSOR)])
        15003 .censorDelayFire ∧
    3 + streamDelayMs sampleSettings ≤ 15003 :=
  ⟨by decide, by decide, by decide,
    render_normal_after_effective_uncensor sampleSettings
      [(0, .START), (1, .PIPELINE_STARTED 0), (2, .CENSOR), (3, .UNCENSOR)] []
      15003 3 .censorDelayFire (by decide) (by decide) (by decide)⟩

/-- C1 (counterexample to the literal claim): an `UNCENSOR` received while
the censorship region is already `normal` matches no handler and is a no-op,
yet it is the trace's last `UNCENSOR` not followed by any `CENSOR`.  With
`delaySeconds = 15`: `START@0`, `UNCENSOR@5` (no-op), `PIPELINE_STARTED@6` —
the start of the engine emits `RENDER_NORMAL` at time 6, well before
`5 + 15000`. -/
theorem uncensor_in_normal_breaks_delay_claim :
    validTrace 0 (initState sampleSettings)
        [(0, .START), (5, .UNCENSOR), (6, .PIPELINE_STARTED 0)] = true ∧
    lastUnrevokedUncensor [(0, .START), (5, .UNCENSOR), (6, .PIPELINE_STARTED 0)]
      = some 5 ∧
    (6, Output.render .renderNormal)
      ∈ runOut (initState sampleSettings)
          [(0, .START), (5, .UNCENSOR), (6, .PIPELINE_STARTED 0)] ∧
    6 < 5 + streamDelayMs sampleSettings := by
  refine ⟨by decide, by decide, by decide, by decide⟩

end Streamdelay
